import Mathlib

/-!
Shallow embedding of the azure-cli extension command module
(`src/command_modules/azure-cli-extension/azure/cli/command_modules/extension/custom.py`).

The module's pure helpers (`is_valid_sha256sum`, the wheel-filename name
derivation) are translated directly; the stateful install/update pipeline
(`_add_whl_ext`, `add_extension`, `update_extension`) is translated as
explicit state passing over an abstract on-disk state `St`, with the
external collaborators (urllib's scheme parsing, the `requests` download,
the zip/metadata reader from `azure.cli.core.extension`, pip, and the
index resolver from `_resolve.py`) modelled at their interface boundary by
an environment record `Env` of oracles.  File contents are byte lists;
SHA-256 is implemented concretely so checksum facts evaluate.
-/

namespace AzExt

/-! ### SHA-256 (concrete implementation of the hashlib collaborator) -/

def w32 (x : Nat) : Nat := x % 4294967296

def rotr32 (n x : Nat) : Nat := w32 ((x >>> n) + ((x % 2 ^ n) * 2 ^ (32 - n)))

def bigSigma0 (x : Nat) : Nat := (rotr32 2 x) ^^^ (rotr32 13 x) ^^^ (rotr32 22 x)

def bigSigma1 (x : Nat) : Nat := (rotr32 6 x) ^^^ (rotr32 11 x) ^^^ (rotr32 25 x)

def smallSigma0 (x : Nat) : Nat := (rotr32 7 x) ^^^ (rotr32 18 x) ^^^ (x >>> 3)

def smallSigma1 (x : Nat) : Nat := (rotr32 17 x) ^^^ (rotr32 19 x) ^^^ (x >>> 10)

def chFn (x y z : Nat) : Nat := (x &&& y) ^^^ ((4294967295 ^^^ x) &&& z)

def majFn (x y z : Nat) : Nat := (x &&& y) ^^^ (x &&& z) ^^^ (y &&& z)

/-- The 64 SHA-256 round constants of FIPS 180-4, written in decimal. -/
def K256 : List Nat :=
  [1116352408, 1899447441, 3049323471, 3921009573, 961987163,
   1508970993, 2453635748, 2870763221, 3624381080, 310598401,
   607225278, 1426881987, 1925078388, 2162078206, 2614888103,
   3248222580, 3835390401, 4022224774, 264347078, 604807628,
   770255983, 1249150122, 1555081692, 1996064986, 2554220882,
   2821834349, 2952996808, 3210313671, 3336571891, 3584528711,
   113926993, 338241895, 666307205, 773529912, 1294757372,
   1396182291, 1695183700, 1986661051, 2177026350, 2456956037,
   2730485921, 2820302411, 3259730800, 3345764771, 3516065817,
   3600352804, 4094571909, 275423344, 430227734, 506948616,
   659060556, 883997877, 958139571, 1322822218, 1537002063,
   1747873779, 1955562222, 2024104815, 2227730452, 2361852424,
   2428436474, 2756734187, 3204031479, 3329325298]

/-- The eight SHA-256 initial hash words of FIPS 180-4, in decimal. -/
def H256 : List Nat :=
  [1779033703, 3144134277, 1013904242, 2773480762, 1359893119,
   2600822924, 528734635, 1541459225]

def beBytes8 (n : Nat) : List Nat :=
  [n / 2 ^ 56 % 256, n / 2 ^ 48 % 256, n / 2 ^ 40 % 256, n / 2 ^ 32 % 256,
   n / 2 ^ 24 % 256, n / 2 ^ 16 % 256, n / 2 ^ 8 % 256, n % 256]

def sha256Pad (msg : List Nat) : List Nat :=
  msg ++ [128] ++ List.replicate ((119 - (msg.length % 64)) % 64) 0 ++ beBytes8 (msg.length * 8)

def bytesToWords : List Nat → List Nat
  | a :: b :: c :: d :: rest => (((a * 256 + b) * 256 + c) * 256 + d) :: bytesToWords rest
  | _ => []

def chunks16Aux : Nat → List Nat → List (List Nat)
  | 0, _ => []
  | _, [] => []
  | fuel + 1, x :: rest => (x :: rest.take 15) :: chunks16Aux fuel (rest.drop 15)

def chunks16 (l : List Nat) : List (List Nat) := chunks16Aux l.length l

def scheduleStep (rev : List Nat) : List Nat :=
  w32 (smallSigma1 (rev.getD 1 0) + rev.getD 6 0 + smallSigma0 (rev.getD 14 0) + rev.getD 15 0)
    :: rev

def buildSchedule (block : List Nat) : List Nat :=
  (Nat.repeat scheduleStep 48 block.reverse).reverse

def sha256Round (s : List Nat) (k : Nat) (w : Nat) : List Nat :=
  match s with
  | [a, b, c, d, e, f, g, h] =>
    let t1 := w32 (h + bigSigma1 e + chFn e f g + k + w)
    let t2 := w32 (bigSigma0 a + majFn a b c)
    [w32 (t1 + t2), a, b, c, w32 (d + t1), e, f, g]
  | _ => s

def compressBlock (h : List Nat) (block : List Nat) : List Nat :=
  let s := (K256.zip (buildSchedule block)).foldl (fun s kw => sha256Round s kw.1 kw.2) h
  (h.zip s).map (fun p => w32 (p.1 + p.2))

def sha256Words (msg : List Nat) : List Nat :=
  (chunks16 (bytesToWords (sha256Pad msg))).foldl compressBlock H256

def hexChar (n : Nat) : Char := if n < 10 then Char.ofNat (48 + n) else Char.ofNat (87 + n)

def wordHex (w : Nat) : List Char :=
  [hexChar (w / 2 ^ 28 % 16), hexChar (w / 2 ^ 24 % 16), hexChar (w / 2 ^ 20 % 16),
   hexChar (w / 2 ^ 16 % 16), hexChar (w / 2 ^ 12 % 16), hexChar (w / 2 ^ 8 % 16),
   hexChar (w / 2 ^ 4 % 16), hexChar (w % 16)]

/-- SHA-256 hex digest of a byte list, as produced by python's
`hashlib.sha256(...).hexdigest()` (lowercase hex). -/
def sha256Hex (msg : List Nat) : String :=
  String.mk ((sha256Words msg).map wordHex).flatten

/-! ### Wheel filename convention and path helpers (external collaborators) -/

/-- Python's `str.endswith`: suffix test on the character sequence. -/
def pyEndsWith (s suffixStr : String) : Bool := suffixStr.data.isSuffixOf s.data

/-- Split a character list at every occurrence of `c` (python `str.split`
on a one-character separator). -/
def splitCharAux (c : Char) : List Char → List Char → List String
  | cur, [] => [String.mk cur.reverse]
  | cur, x :: rest =>
    if x = c then String.mk cur.reverse :: splitCharAux c [] rest
    else splitCharAux c (x :: cur) rest

def splitChar (c : Char) (s : String) : List String := splitCharAux c [] s.data

/-- Python's `str.replace('_', '-')`: one-character substitution. -/
def undoWheelSep (s : String) : String :=
  String.mk (s.data.map (fun ch => if ch = '_' then '-' else ch))

/-- `os.path.basename`: the final path segment. -/
def basename (p : String) : String := (splitChar '/' p).getLastD ""

def startsWithDigit (s : String) : Bool :=
  match s.data with
  | [] => false
  | c :: _ => c.isDigit

/-- Modelled from the spec: the package archive's name-encoding convention
(the external `WHEEL_INFO_RE` of the `wheel` package, an out-of-scope
collaborator).  A wheel filename is
`{name}-{ver}(-{build})?-{pyver}-{abi}-{plat}.whl` where `ver` starts with a
digit; the distribution name is the (nonempty) leading run of
hyphen-separated pieces before the first digit-starting piece that still
leaves at least three trailing pieces for `pyver`, `abi` and `plat`. -/
def wheelNameCore : List String → List String → Option String
  | _, [] => none
  | acc, p :: rest =>
    if startsWithDigit p && !acc.isEmpty && rest.length ≥ 3 then
      some (String.intercalate "-" acc.reverse)
    else
      wheelNameCore (p :: acc) rest

/-- The encoded distribution name extracted from a wheel filename, when the
filename follows the convention. -/
def wheelEncodedName (fn : String) : Option String :=
  if pyEndsWith fn ".whl" then wheelNameCore [] (splitChar '-' (fn.dropRight 4)) else none

/-! ### Data model: on-disk state and environment of collaborators -/

/-- The contents installed for one extension: its version string and an
abstract identity for the full directory tree (two equal records stand for
byte-identical trees). -/
structure ExtRecord where
  version : String
  content : Nat
deriving DecidableEq, Repr

/-- Abstract on-disk state threaded through the pipeline: the extension
store (association list name ↦ installed record), the backup directories
that exist (with the record each holds), and counters of live temporary
extraction/download directories plus how often the index resolver has been
invoked. -/
structure St where
  installed : List (String × ExtRecord)
  backups : List (String × ExtRecord)
  tmpExtractDirs : Nat
  tmpDownloadDirs : Nat
  resolverCalls : Nat
deriving DecidableEq, Repr

/-- Outcome of opening the artifact archive and reading its package
metadata (`zipfile` plus `WheelExtension.get_azext_metadata`, both external
collaborators; the latter signals a structurally broken wheel with an
`AssertionError`, which is the exception `_add_whl_ext` catches).
`ok meta` carries an abstract token for the compatibility metadata. -/
inductive ZipOutcome where
  | badZip
  | noMetadata
  | ok (meta : Nat)
deriving DecidableEq, Repr

/-- Environment of external collaborators, modelled at their interface
boundary (spec sections 4.2, 4.4, 4.6 and 6): url parsing, download,
local files and their contents, archive/metadata reading, host-version
compatibility, pip, the resulting installed trees, the index resolver, and
whether the two `shutil.copytree` calls of an update succeed. -/
structure Env where
  scheme : String → String
  urlPath : String → String
  downloadOk : String → Bool
  urlContent : String → List Nat
  isFile : String → Bool
  localContent : String → List Nat
  zipOutcome : List Nat → ZipOutcome
  compatible : Nat → Bool
  pipRc : List Nat → Int
  pipPartial : List Nat → ExtRecord
  installResult : List Nat → ExtRecord
  resolveIndex : String → Option String → Option (String × Option String)
  backupCopyOk : Bool
  restoreCopyOk : Bool

/-- Error outcomes of the pipeline.  Constructors tagged `CLIError` raise
sites in `custom.py`; `badZipFile`, `backupCopyFailed`, `restoreCopyFailed`
and `attributeError` stand for exceptions that propagate out of the module
unclassified (no `except` clause converts them to a `CLIError`). -/
inductive Err where
  | unsupportedArtifactType
  | nameResolutionFailed
  | alreadyExists
  | downloadFailed
  | fileNotFound
  | checksumMismatch
  | invalidArtifact
  | badZipFile
  | incompatibleVersion
  | installationFailed
  | noCandidates
  | notInstalled
  | noUpdateAvailable
  | updateFailed
  | backupCopyFailed
  | restoreCopyFailed
  | attributeError
deriving DecidableEq, Repr

/-! ### Extension store primitives (spec section 4.6 collaborator) -/

/-- `exists`/`get` of the store: look a name up in the association list. -/
def getExt : List (String × ExtRecord) → String → Option ExtRecord
  | [], _ => none
  | (k, v) :: l, n => if k = n then some v else getExt l n

/-- Effect of writing an installed tree for `n` (pip `--target` /
`copytree` into the extension path). -/
def setExt (l : List (String × ExtRecord)) (n : String) (r : ExtRecord) :
    List (String × ExtRecord) :=
  (n, r) :: l.filter (fun p => p.1 ≠ n)

/-- Effect of `shutil.rmtree` on the extension path of `n`. -/
def delExt (l : List (String × ExtRecord)) (n : String) : List (String × ExtRecord) :=
  l.filter (fun p => p.1 ≠ n)

/-! ### The pipeline of `_add_whl_ext` (custom.py lines 87-150) -/

/-- `is_url = (scheme == 'http' or scheme == 'https')` (custom.py line 91). -/
def sourceIsUrl (env : Env) (source : String) : Bool :=
  env.scheme source == "http" || env.scheme source == "https"

/-- `whl_filename = os.path.basename(url_parse_result.path) if is_url else
os.path.basename(source)` (custom.py line 93). -/
def whlFilenameOf (env : Env) (source : String) : String :=
  basename (if sourceIsUrl env source then env.urlPath source else source)

/-- The extension name derived from a source (custom.py lines 94-96): parse
the wheel filename, then undo the PEP 0427 separator normalization by
replacing every underscore with a hyphen. -/
def derivedNameOf (env : Env) (source : String) : Option String :=
  (wheelEncodedName (whlFilenameOf env source)).map undoWheelSep

/-- Byte content of the artifact the pipeline ends up validating: the
downloaded body for a url source, the local file's content otherwise. -/
def contentOf (env : Env) (source : String) : List Nat :=
  if sourceIsUrl env source then env.urlContent source else env.localContent source

/-- Fetch step (custom.py lines 101-116).  For a url source a fresh
temporary download directory is created before the download is attempted
(and is never removed on any path of `_add_whl_ext`); a failed request
raises the network-connectivity `CLIError`.  For a local source a missing
file raises the file-not-found `CLIError`. -/
def fetchStep (env : Env) (st : St) (source : String) : Except Err (List Nat) × St :=
  if sourceIsUrl env source then
    let st1 := { st with tmpDownloadDirs := st.tmpDownloadDirs + 1 }
    if env.downloadOk source then (.ok (env.urlContent source), st1)
    else (.error .downloadFailed, st1)
  else
    if env.isFile source then (.ok (env.localContent source), st)
    else (.error .fileNotFound, st)

/-- `is_valid_sha256sum` (custom.py lines 153-158): returns whether the
expected digest equals the computed digest, together with the computed
digest. -/
def is_valid_sha256sum (content : List Nat) (expectedSum : String) : Bool × String :=
  let computedHash := sha256Hex content
  (expectedSum == computedHash, computedHash)

/-- Checksum step (custom.py lines 119-127).  `if ext_sha256:` is python
truthiness, so both `None` and the empty string skip validation. -/
def checksumStep (content : List Nat) (extSha256 : Option String) : Except Err Unit :=
  match extSha256 with
  | none => .ok ()
  | some d =>
    if d = "" then .ok ()
    else if (is_valid_sha256sum content d).1 then .ok ()
    else .error .checksumMismatch

/-- Errors that can escape `_validate_whl_extension` before the caller's
`except` clauses classify them. -/
inductive VErr where
  | badZipFile
  | assertionError
  | cliIncompatible
deriving DecidableEq, Repr

/-- `_validate_whl_extension` (custom.py lines 77-84).  A temporary
extraction directory is created first; there is no try/finally, so it is
removed only when control reaches the `shutil.rmtree(tmp_dir)` line, which
sits before the compatibility check. -/
def validate_whl_extension (env : Env) (st : St) (content : List Nat) :
    Except VErr Unit × St :=
  let st1 := { st with tmpExtractDirs := st.tmpExtractDirs + 1 }
  match env.zipOutcome content with
  | .badZip => (.error .badZipFile, st1)
  | .noMetadata => (.error .assertionError, st1)
  | .ok meta =>
    let st2 := { st1 with tmpExtractDirs := st1.tmpExtractDirs - 1 }
    if env.compatible meta then (.ok (), st2) else (.error .cliIncompatible, st2)

/-- How `_add_whl_ext`'s `try/except` around `_validate_whl_extension`
(custom.py lines 128-134) classifies the escaping exception: an
`AssertionError` becomes the invalid-extension `CLIError`, a `CLIError`
is re-raised, and anything else — in particular `zipfile.BadZipfile` —
propagates unclassified. -/
def classifyValidationError : VErr → Err
  | .badZipFile => .badZipFile
  | .assertionError => .invalidArtifact
  | .cliIncompatible => .incompatibleVersion

/-- Validation step of `_add_whl_ext`: `_validate_whl_extension` under the
`try/except` of custom.py lines 128-134. -/
def validationStep (env : Env) (st : St) (content : List Nat) : Except Err Unit × St :=
  match validate_whl_extension env st content with
  | (.ok _, st') => (.ok (), st')
  | (.error v, st') => (.error (classifyValidationError v), st')

/-- Install step (custom.py lines 137-150): pip writes into the extension
path; a return code `> 0` triggers `shutil.rmtree(extension_path,
ignore_errors=True)` and the pip-failed `CLIError`, otherwise the original
wheel is copied into the extension path as provenance.  The return code is
an `Int`, as python's `subprocess` reports it (negative for a
signal-killed child). -/
def installStep (env : Env) (st : St) (extName : String) (content : List Nat) :
    Except Err Unit × St :=
  let stP := { st with installed := setExt st.installed extName (env.pipPartial content) }
  if env.pipRc content > 0 then
    (.error .installationFailed, { stP with installed := delExt stP.installed extName })
  else
    (.ok (), { stP with installed := setExt stP.installed extName (env.installResult content) })

/-- `_add_whl_ext` (custom.py lines 87-150), with the steps in source
order: artifact-type check, name derivation, existence check, fetch,
checksum, validation, install. -/
def add_whl_ext (env : Env) (st : St) (source : String) (extSha256 : Option String) :
    Except Err Unit × St :=
  if pyEndsWith source ".whl" then
    match derivedNameOf env source with
    | none => (.error .nameResolutionFailed, st)
    | some extName =>
      if extName = "" then (.error .nameResolutionFailed, st)
      else if (getExt st.installed extName).isSome then (.error .alreadyExists, st)
      else
        match fetchStep env st source with
        | (.error e, st1) => (.error e, st1)
        | (.ok content, st1) =>
          match checksumStep content extSha256 with
          | .error e => (.error e, st1)
          | .ok _ =>
            match validationStep env st1 content with
            | (.error e, st2) => (.error e, st2)
            | (.ok _, st2) => installStep env st2 extName content
  else (.error .unsupportedArtifactType, st)

/-! ### Top-level operations (custom.py lines 161-171 and 198-226) -/

/-- The source branch of `add_extension`: `_add_whl_ext(source)` with no
checksum; with no source at all, `source.endswith` raises an unclassified
`AttributeError`. -/
def addSourceBranch (env : Env) (st : St) (source : Option String) : Except Err Unit × St :=
  match source with
  | some s => add_whl_ext env st s none
  | none => (.error .attributeError, st)

/-- `add_extension` (custom.py lines 161-171).  `if extension_name:` is
python truthiness, so an empty name falls through to the source branch.
With a (nonempty) name: existence check first, then the index resolver,
then `_add_whl_ext` on the resolved source and checksum. -/
def add_extension (env : Env) (st : St) (source : Option String)
    (extensionName : Option String) : Except Err Unit × St :=
  match extensionName with
  | some n =>
    if n = "" then addSourceBranch env st source
    else if (getExt st.installed n).isSome then (.error .alreadyExists, st)
    else
      match env.resolveIndex n none with
      | none => (.error .noCandidates, { st with resolverCalls := st.resolverCalls + 1 })
      | some (src, sha) =>
        add_whl_ext env { st with resolverCalls := st.resolverCalls + 1 } src sha
  | none => addSourceBranch env st source

/-- State after the backup `copytree` and the `rmtree` of the current
installation (custom.py lines 208-213): the index has been queried, a
backup of the current tree exists, and the name is gone from the store. -/
def preInstallState (st : St) (n : String) (cur : ExtRecord) : St :=
  { st with resolverCalls := st.resolverCalls + 1,
            backups := (n, cur) :: st.backups,
            installed := delExt st.installed n }

/-- `update_extension` (custom.py lines 198-226): look up the installed
extension, resolve a strictly newer candidate (none → the no-updates
`CLIError`), back the current tree up with `copytree`, `rmtree` the
current tree, re-run the install pipeline, and on its failure restore the
backup with `copytree` and raise the rolled-back `CLIError`; a failing
restore copy propagates unclassified, leaving the backup orphaned.  On
success the backup directory is removed. -/
def update_extension (env : Env) (st : St) (n : String) : Except Err Unit × St :=
  match getExt st.installed n with
  | none => (.error .notInstalled, st)
  | some cur =>
    match env.resolveIndex n (some cur.version) with
    | none => (.error .noUpdateAvailable, { st with resolverCalls := st.resolverCalls + 1 })
    | some (url, sha) =>
      if env.backupCopyOk then
        match add_whl_ext env (preInstallState st n cur) url sha with
        | (.ok _, stA) => (.ok (), { stA with backups := stA.backups.erase (n, cur) })
        | (.error _, stA) =>
          if env.restoreCopyOk then
            (.error .updateFailed, { stA with installed := setExt stA.installed n cur })
          else (.error .restoreCopyFailed, stA)
      else (.error .backupCopyFailed, { st with resolverCalls := st.resolverCalls + 1 })

/-! ### Concrete environments and states for the scenario theorems -/

/-- A neutral concrete environment: every collaborator succeeds, the index
resolves nothing.  Scenario environments adjust single fields. -/
def env0 : Env where
  scheme := fun _ => ""
  urlPath := fun _ => ""
  downloadOk := fun _ => true
  urlContent := fun _ => []
  isFile := fun _ => true
  localContent := fun _ => []
  zipOutcome := fun _ => .ok 0
  compatible := fun _ => true
  pipRc := fun _ => 0
  pipPartial := fun _ => ⟨"", 0⟩
  installResult := fun _ => ⟨"1.0.0", 1⟩
  resolveIndex := fun _ _ => none
  backupCopyOk := true
  restoreCopyOk := true

/-- The empty on-disk state. -/
def st0 : St := ⟨[], [], 0, 0, 0⟩

/-- The sample url of the spec's add-from-url scenario. -/
def sampleUrl : String := "https://x/sample_ext-1.0.0-py3-none-any.whl"

/-- Environment for the add-from-url scenario: url parsing of `sampleUrl`,
download succeeds, the wheel is valid and compatible, pip succeeds. -/
def envSample : Env :=
  { env0 with
    scheme := fun s => if s = sampleUrl then "https" else ""
    urlPath := fun s => if s = sampleUrl then "/sample_ext-1.0.0-py3-none-any.whl" else "" }

/-- Environment in which pip exits with status 2. -/
def envPipFail : Env := { env0 with pipRc := fun _ => 2 }

/-- Environment in which the artifact archive is an unreadable zip. -/
def envBadZip : Env := { env0 with zipOutcome := fun _ => .badZip }

/-- Environment in which the wheel's package metadata is missing. -/
def envNoMetadata : Env := { env0 with zipOutcome := fun _ => .noMetadata }

/-- An installed tree for the extension named `"foo"`, version 1.0.0. -/
def recFoo : ExtRecord := ⟨"1.0.0", 7⟩

/-- A state with `"foo"` installed and nothing else on disk. -/
def stFoo : St := ⟨[("foo", recFoo)], [], 0, 0, 0⟩

/-- Url of a newer wheel for `"foo"`, used by the update scenarios. -/
def fooUpdateUrl : String := "https://x/foo-2.0.0-py3-none-any.whl"

/-- Environment for the update scenarios: the index resolves `"foo"` at
version 1.0.0 to `fooUpdateUrl` (no checksum), whose wheel parses back to
the name `"foo"`; everything else succeeds. -/
def envUpdate : Env :=
  { env0 with
    scheme := fun s => if s = fooUpdateUrl then "https" else ""
    urlPath := fun s => if s = fooUpdateUrl then "/foo-2.0.0-py3-none-any.whl" else ""
    installResult := fun _ => ⟨"2.0.0", 9⟩
    resolveIndex := fun n v =>
      if n = "foo" ∧ v = some "1.0.0" then some (fooUpdateUrl, none) else none }

/-- `envUpdate` but the freshly installed wheel is incompatible with the
host, so the mid-update install fails after the old tree is gone. -/
def envUpdateFail : Env := { envUpdate with compatible := fun _ => false }

/-- `envUpdateFail` with the restore `copytree` also failing: the
double-failure degraded case. -/
def envUpdateDegraded : Env := { envUpdateFail with restoreCopyOk := false }

/-! ### The update atomicity invariant (spec section 4.5) as predicates -/

/-- Post-state "the new version is installed and the backup directory has
been deleted": the update returned success, the name maps to the tree pip
built from the resolved artifact, and the backups on disk are exactly the
ones that existed before. -/
def newInstalled (env : Env) (st : St) (n : String) (cur : ExtRecord) : Prop :=
  (update_extension env st n).1 = .ok () ∧
  (∃ url sha, env.resolveIndex n (some cur.version) = some (url, sha) ∧
    getExt (update_extension env st n).2.installed n =
      some (env.installResult (contentOf env url))) ∧
  (update_extension env st n).2.backups = st.backups

/-- Post-state "the original version is present at its install path": the
update returned an error and the store still maps the name to the original
tree. -/
def oldRestored (env : Env) (st : St) (n : String) (cur : ExtRecord) : Prop :=
  (∃ e, (update_extension env st n).1 = .error e) ∧
  getExt (update_extension env st n).2.installed n = some cur

/-- Post-state of the explicit degraded case: the restore copy failed, its
error escaped unclassified, the extension is absent, and the backup of the
original tree is orphaned on disk. -/
def degradedOrphan (env : Env) (st : St) (n : String) (cur : ExtRecord) : Prop :=
  (update_extension env st n).1 = .error .restoreCopyFailed ∧
  getExt (update_extension env st n).2.installed n = none ∧
  (n, cur) ∈ (update_extension env st n).2.backups

/-! ### Store lemmas -/

theorem getExt_delExt (l : List (String × ExtRecord)) (n : String) :
    getExt (delExt l n) n = none := by
  induction l with
  | nil => rfl
  | cons p l ih =>
    by_cases h : p.1 = n
    · simpa [delExt, h] using ih
    · simpa [delExt, getExt, h] using ih

theorem delExt_of_getExt_none (l : List (String × ExtRecord)) (n : String)
    (h : getExt l n = none) : delExt l n = l := by
  induction l with
  | nil => rfl
  | cons p l ih =>
    match p with
    | (k, v) =>
      by_cases hk : k = n
      · simp [getExt, hk] at h
      · simp only [getExt, if_neg hk] at h
        have hrec := ih h
        simp only [delExt] at hrec ⊢
        rw [List.filter_cons_of_pos, hrec]
        simpa using hk

theorem getExt_setExt (l : List (String × ExtRecord)) (n : String) (r : ExtRecord) :
    getExt (setExt l n r) n = some r := by
  simp [setExt, getExt]

theorem delExt_delExt (l : List (String × ExtRecord)) (n : String) :
    delExt (delExt l n) n = delExt l n := by
  simp [delExt, List.filter_filter]

theorem delExt_setExt (l : List (String × ExtRecord)) (n : String) (r : ExtRecord) :
    delExt (setExt l n r) n = delExt l n := by
  simp [delExt, setExt, List.filter_filter]

theorem setExt_setExt (l : List (String × ExtRecord)) (n : String) (a b : ExtRecord) :
    setExt (setExt l n a) n b = setExt l n b := by
  simp [setExt, List.filter_filter]

/-! ### Structural lemmas about the install pipeline -/

theorem fetchStep_installed (env : Env) (st : St) (s : String) :
    (fetchStep env st s).2.installed = st.installed := by
  unfold fetchStep
  split <;> split <;> rfl

theorem fetchStep_backups (env : Env) (st : St) (s : String) :
    (fetchStep env st s).2.backups = st.backups := by
  unfold fetchStep
  split <;> split <;> rfl

theorem fetchStep_ok_content (env : Env) (st : St) (s : String) (c : List Nat)
    (h : (fetchStep env st s).1 = .ok c) : c = contentOf env s := by
  unfold fetchStep at h
  unfold contentOf
  split at h <;> split at h <;> simp_all

theorem validate_whl_extension_installed (env : Env) (st : St) (c : List Nat) :
    (validate_whl_extension env st c).2.installed = st.installed := by
  unfold validate_whl_extension
  split
  · rfl
  · rfl
  · split <;> rfl

theorem validate_whl_extension_backups (env : Env) (st : St) (c : List Nat) :
    (validate_whl_extension env st c).2.backups = st.backups := by
  unfold validate_whl_extension
  split
  · rfl
  · rfl
  · split <;> rfl

theorem validationStep_state (env : Env) (st : St) (c : List Nat) :
    (validationStep env st c).2 = (validate_whl_extension env st c).2 := by
  unfold validationStep
  split <;> simp_all

/-- Exhaustive effect description of `_add_whl_ext` on the store and the
backups: backups are never touched; on any error the store is exactly what
it was; on success the source's derived name was free in the store and now
maps to the tree pip produced from the fetched artifact. -/
theorem add_whl_ext_cases (env : Env) (st : St) (s : String) (sha : Option String) :
    (add_whl_ext env st s sha).2.backups = st.backups ∧
      (((∃ e, (add_whl_ext env st s sha).1 = .error e) ∧
          (add_whl_ext env st s sha).2.installed = st.installed) ∨
        ((add_whl_ext env st s sha).1 = .ok () ∧
          ∃ n, derivedNameOf env s = some n ∧ getExt st.installed n = none ∧
            (add_whl_ext env st s sha).2.installed =
              setExt st.installed n (env.installResult (contentOf env s)))) := by
  unfold add_whl_ext
  split
  case isFalse => exact ⟨rfl, .inl ⟨⟨_, rfl⟩, rfl⟩⟩
  case isTrue hwhl =>
  split
  case h_1 => exact ⟨rfl, .inl ⟨⟨_, rfl⟩, rfl⟩⟩
  case h_2 extName hname =>
  split
  case isTrue => exact ⟨rfl, .inl ⟨⟨_, rfl⟩, rfl⟩⟩
  case isFalse hnameEmpty =>
  split
  case isTrue => exact ⟨rfl, .inl ⟨⟨_, rfl⟩, rfl⟩⟩
  case isFalse hex =>
  have hfree : getExt st.installed extName = none := by
    cases hget : getExt st.installed extName with
    | none => rfl
    | some r => rw [hget] at hex; simp at hex
  split
  case h_1 e st1 heqF =>
    have h2 : st1 = (fetchStep env st s).2 := by rw [heqF]
    refine ⟨?_, .inl ⟨⟨e, rfl⟩, ?_⟩⟩
    · rw [h2, fetchStep_backups]
    · rw [h2, fetchStep_installed]
  case h_2 content st1 heqF =>
  have h1 : (fetchStep env st s).1 = .ok content := by rw [heqF]
  have hcont : content = contentOf env s := fetchStep_ok_content env st s content h1
  have h2 : st1 = (fetchStep env st s).2 := by rw [heqF]
  have hI1 : st1.installed = st.installed := by rw [h2, fetchStep_installed]
  have hB1 : st1.backups = st.backups := by rw [h2, fetchStep_backups]
  split
  case h_1 e heqC => exact ⟨hB1, .inl ⟨⟨e, rfl⟩, hI1⟩⟩
  case h_2 heqC =>
  split
  case h_1 e st2 heqV =>
    have h3 : st2 = (validationStep env st1 content).2 := by rw [heqV]
    have hI2 : st2.installed = st1.installed := by
      rw [h3, validationStep_state, validate_whl_extension_installed]
    have hB2 : st2.backups = st1.backups := by
      rw [h3, validationStep_state, validate_whl_extension_backups]
    exact ⟨hB2.trans hB1, .inl ⟨⟨e, rfl⟩, hI2.trans hI1⟩⟩
  case h_2 st2 heqV =>
  have h3 : st2 = (validationStep env st1 content).2 := by rw [heqV]
  have hI2 : st2.installed = st.installed := by
    rw [h3, validationStep_state, validate_whl_extension_installed, hI1]
  have hB2 : st2.backups = st.backups := by
    rw [h3, validationStep_state, validate_whl_extension_backups, hB1]
  unfold installStep
  split
  case isTrue =>
    refine ⟨hB2, .inl ⟨⟨_, rfl⟩, ?_⟩⟩
    simp only [delExt_setExt, hI2]
    exact delExt_of_getExt_none st.installed extName hfree
  case isFalse =>
    refine ⟨hB2, .inr ⟨rfl, extName, hname, hfree, ?_⟩⟩
    simp only [setExt_setExt, hI2, hcont]

/-- On any error, `_add_whl_ext` leaves the store exactly as it was. -/
theorem add_whl_ext_error_installed (env : Env) (st : St) (s : String) (sha : Option String)
    (e : Err) (h : (add_whl_ext env st s sha).1 = .error e) :
    (add_whl_ext env st s sha).2.installed = st.installed := by
  rcases add_whl_ext_cases env st s sha with ⟨-, hcase | hcase⟩
  · exact hcase.2
  · rw [hcase.1] at h
    cases h

/-! ### Claim theorems -/

theorem sha256_demo_ne : sha256Hex [0x60] ≠ sha256Hex [0x61] := by decide

theorem sha256_demo_ne_empty : sha256Hex [0x61] ≠ "" := by decide

/-- C4: checksum validation succeeds exactly when the SHA-256 hex digest
of the full file content equals the provided digest; with a provided
(nonempty) digest, a mismatch fails with the checksum-mismatch error; and
for the concrete one-bit-flipped artifact `[0x60]` of `[0x61]`, the
digests differ and validation against the original artifact's digest
fails with the checksum-mismatch error. -/
theorem checksum_validation_iff_sha256 :
    (∀ (content : List Nat) (d : String),
        (is_valid_sha256sum content d).1 = true ↔ sha256Hex content = d) ∧
    (∀ (content : List Nat) (d : String), d ≠ "" →
        (checksumStep content (some d) = .ok () ↔ sha256Hex content = d) ∧
        (checksumStep content (some d) = .error .checksumMismatch ↔ sha256Hex content ≠ d)) ∧
    (sha256Hex [0x60] ≠ sha256Hex [0x61] ∧
      checksumStep [0x60] (some (sha256Hex [0x61])) = .error .checksumMismatch) := by
  have hbase : ∀ (content : List Nat) (d : String),
      (is_valid_sha256sum content d).1 = true ↔ sha256Hex content = d := by
    intro content d
    have h1 : (is_valid_sha256sum content d).1 = (d == sha256Hex content) := rfl
    rw [h1, beq_iff_eq]
    exact eq_comm
  have hstep : ∀ (content : List Nat) (d : String), d ≠ "" →
      (checksumStep content (some d) = .ok () ↔ sha256Hex content = d) ∧
      (checksumStep content (some d) = .error .checksumMismatch ↔ sha256Hex content ≠ d) := by
    intro content d hd
    have hred : checksumStep content (some d) =
        if (is_valid_sha256sum content d).1 = true then .ok ()
        else .error .checksumMismatch := by
      simp only [checksumStep, if_neg hd]
    rw [hred]
    by_cases hv : (is_valid_sha256sum content d).1 = true
    · rw [if_pos hv]
      refine ⟨⟨fun _ => (hbase content d).mp hv, fun _ => rfl⟩, ?_, ?_⟩
      · intro h
        cases h
      · intro hne
        exact absurd ((hbase content d).mp hv) hne
    · rw [if_neg hv]
      refine ⟨⟨?_, ?_⟩, ?_, fun _ => rfl⟩
      · intro h
        cases h
      · intro he
        exact absurd ((hbase content d).mpr he) hv
      · intro _ he
        exact hv ((hbase content d).mpr he)
  exact ⟨hbase, hstep, sha256_demo_ne,
    ((hstep [0x60] (sha256Hex [0x61]) sha256_demo_ne_empty).2).mpr sha256_demo_ne⟩

/-- C4 witness: validating the one-byte artifact against its own digest
succeeds, and validating the bit-flipped artifact against that digest
fails with the checksum-mismatch error. -/
theorem checksum_validation_iff_sha256_witness :
    checksumStep [0x61] (some (sha256Hex [0x61])) = .ok () ∧
    checksumStep [0x60] (some (sha256Hex [0x61])) = .error .checksumMismatch :=
  ⟨(checksum_validation_iff_sha256.2.1 [0x61] (sha256Hex [0x61])
      sha256_demo_ne_empty).1.mpr rfl,
   (checksum_validation_iff_sha256.2.1 [0x60] (sha256Hex [0x61])
      sha256_demo_ne_empty).2.mpr sha256_demo_ne⟩

/-- C8: a source string not ending in `.whl` makes `_add_whl_ext` fail
with the unsupported-artifact-type error, leaving the state untouched; and
a source is classified as a remote url exactly when its scheme is http or
https. -/
theorem source_classification (env : Env) (st : St) (source : String) (sha : Option String) :
    (pyEndsWith source ".whl" = false →
        (add_whl_ext env st source sha).1 = .error .unsupportedArtifactType ∧
        (add_whl_ext env st source sha).2 = st) ∧
    (sourceIsUrl env source = true ↔
        env.scheme source = "http" ∨ env.scheme source = "https") := by
  constructor
  · intro h
    unfold add_whl_ext
    rw [h]
    exact ⟨rfl, rfl⟩
  · simp [sourceIsUrl]

/-- C8 witness: a plain text file is rejected as an unsupported artifact
type, and the sample url's https scheme classifies it as remote. -/
theorem source_classification_witness :
    ((add_whl_ext env0 st0 "foo.txt" none).1 = .error .unsupportedArtifactType ∧
      (add_whl_ext env0 st0 "foo.txt" none).2 = st0) ∧
    (sourceIsUrl envSample sampleUrl = true ↔
      envSample.scheme sampleUrl = "http" ∨ envSample.scheme sampleUrl = "https") :=
  ⟨(source_classification env0 st0 "foo.txt" none).1 (by decide),
   (source_classification envSample st0 sampleUrl none).2⟩

/-- C7: whenever the source's final path segment parses under the wheel
filename convention to the encoded name `enc`, the derived extension name
is `enc` with the separator normalization undone (underscores back to
hyphens); adding from the sample url derives and installs the name
`"sample-ext"`; and a url whose filename has no parse fails with the
name-resolution error. -/
theorem derived_name_from_filename :
    (∀ (env : Env) (source : String) (enc : String),
        wheelEncodedName (whlFilenameOf env source) = some enc →
        derivedNameOf env source = some (undoWheelSep enc)) ∧
    (derivedNameOf envSample sampleUrl = some "sample-ext" ∧
      (add_whl_ext envSample st0 sampleUrl none).1 = .ok () ∧
      getExt (add_whl_ext envSample st0 sampleUrl none).2.installed "sample-ext" =
        some ⟨"1.0.0", 1⟩) ∧
    ((add_whl_ext envSample st0 "https://x/foo.whl" none).1 =
      .error .nameResolutionFailed) := by
  refine ⟨?_, ⟨by decide, rfl, by decide⟩, rfl⟩
  intro env source enc h
  simp [derivedNameOf, h]

/-- C7 witness: the sample url's filename follows the convention with
encoded name `sample_ext`, and the derived name is `sample-ext`. -/
theorem derived_name_from_filename_witness :
    derivedNameOf envSample sampleUrl = some "sample-ext" :=
  derived_name_from_filename.1 envSample sampleUrl "sample_ext" (by decide)

/-- C3: in the install step, a nonnegative pip return code (an exit
status) that is nonzero makes the orchestrator delete the destination
directory and fail with the installation-failed error; the step succeeds
exactly when the exit status is zero. -/
theorem installer_nonzero_exit (env : Env) (st : St) (extName : String) (content : List Nat)
    (h : 0 ≤ env.pipRc content) :
    (env.pipRc content ≠ 0 →
        (installStep env st extName content).1 = .error .installationFailed ∧
        getExt (installStep env st extName content).2.installed extName = none) ∧
    ((installStep env st extName content).1 = .ok () ↔ env.pipRc content = 0) := by
  constructor
  · intro hne
    have hpos : env.pipRc content > 0 := lt_of_le_of_ne h (Ne.symm hne)
    unfold installStep
    rw [if_pos hpos]
    exact ⟨rfl, getExt_delExt _ _⟩
  · constructor
    · intro hok
      by_contra hne
      have hpos : env.pipRc content > 0 := lt_of_le_of_ne h (Ne.symm hne)
      unfold installStep at hok
      rw [if_pos hpos] at hok
      cases hok
    · intro h0
      unfold installStep
      rw [if_neg (by omega : ¬env.pipRc content > 0)]

/-- C3 witness: with pip exiting with status 2, the install step fails
with the installation-failed error and the destination is gone. -/
theorem installer_nonzero_exit_witness :
    (installStep envPipFail st0 "foo" []).1 = .error .installationFailed ∧
    getExt (installStep envPipFail st0 "foo" []).2.installed "foo" = none :=
  (installer_nonzero_exit envPipFail st0 "foo" [] (by decide)).1 (by decide)

/-- C5 counterexample: with an unreadable archive, validation returns with
the temporary extraction directory still on disk (one live directory, up
from zero), refuting "the temporary extraction directory is discarded
before validation returns, regardless of outcome". -/
theorem tmpdir_cleanup_counterexample :
    (validate_whl_extension envBadZip st0 []).1 = .error .badZipFile ∧
    (validate_whl_extension envBadZip st0 []).2.tmpExtractDirs = 1 :=
  ⟨rfl, rfl⟩

/-- C5 amended: the temporary extraction directory is discarded on the
success path and on the incompatible-version failure path (its removal
precedes the compatibility check), but it is leaked on the
unreadable-archive and missing-metadata failure paths (no try/finally
around the extraction). -/
theorem tmpdir_cleanup_amended (env : Env) (st : St) (content : List Nat) :
    (∀ meta, env.zipOutcome content = .ok meta →
        (validate_whl_extension env st content).2.tmpExtractDirs = st.tmpExtractDirs) ∧
    (env.zipOutcome content = .badZip ∨ env.zipOutcome content = .noMetadata →
        (validate_whl_extension env st content).2.tmpExtractDirs = st.tmpExtractDirs + 1) := by
  constructor
  · intro meta h
    unfold validate_whl_extension
    rw [h]
    split
    · rename_i heq
      cases heq
    · rename_i heq
      cases heq
    · split <;> simp
  · intro h
    unfold validate_whl_extension
    rcases h with h | h <;> rw [h]

/-- C5 amended witness: a compatible valid wheel leaves no temporary
extraction directory behind, an unreadable one leaves one. -/
theorem tmpdir_cleanup_amended_witness :
    (validate_whl_extension env0 st0 []).2.tmpExtractDirs = 0 ∧
    (validate_whl_extension envBadZip st0 []).2.tmpExtractDirs = 1 :=
  ⟨(tmpdir_cleanup_amended env0 st0 []).1 0 rfl,
   (tmpdir_cleanup_amended envBadZip st0 []).2 (Or.inl rfl)⟩

/-- C6 counterexample: an unreadable zip archive does not fail with the
invalid-extension error kind — the zip error escapes `_add_whl_ext`
unclassified (only `AssertionError` and `CLIError` are caught), refuting
"any structural corruption fails with InvalidArtifact". -/
theorem invalid_artifact_counterexample :
    (validationStep envBadZip st0 []).1 = .error .badZipFile ∧
    Err.badZipFile ≠ Err.invalidArtifact :=
  ⟨rfl, by decide⟩

/-- C6 amended: a wheel whose package metadata is missing fails with the
invalid-extension error (its AssertionError is caught and classified), but
an unreadable zip archive escapes as an unclassified zip error. -/
theorem invalid_artifact_amended (env : Env) (st : St) (content : List Nat) :
    (env.zipOutcome content = .noMetadata →
        (validationStep env st content).1 = .error .invalidArtifact) ∧
    (env.zipOutcome content = .badZip →
        (validationStep env st content).1 = .error .badZipFile) := by
  constructor <;>
    · intro h
      unfold validationStep validate_whl_extension
      rw [h]
      rfl

/-- C6 amended witness: the two failure classifications at concrete
inputs. -/
theorem invalid_artifact_amended_witness :
    (validationStep envNoMetadata st0 []).1 = .error .invalidArtifact ∧
    (validationStep envBadZip st0 []).1 = .error .badZipFile :=
  ⟨(invalid_artifact_amended envNoMetadata st0 []).1 rfl,
   (invalid_artifact_amended envBadZip st0 []).2 rfl⟩

/-- C2 counterexample: an add attempt for an already-installed name fails
(already-exists error) yet `exists(n)` is still true afterwards, refuting
"`exists(n)` is false after every failed add attempt, any error kind". -/
theorem add_failure_no_trace_counterexample :
    (add_extension env0 stFoo none (some "foo")).1 = .error .alreadyExists ∧
    getExt (add_extension env0 stFoo none (some "foo")).2.installed "foo" = some recFoo :=
  ⟨rfl, rfl⟩

/-- The source branch of `add_extension` leaves the store unchanged on any
error. -/
theorem addSourceBranch_error_installed (env : Env) (st : St) (source : Option String)
    (e : Err) (h : (addSourceBranch env st source).1 = .error e) :
    (addSourceBranch env st source).2.installed = st.installed := by
  cases source with
  | some s => exact add_whl_ext_error_installed env st s none e h
  | none => rfl

/-- C2 amended: every failed add attempt — by name or by direct source,
any error kind — leaves the extension store exactly as it was.  Hence
`exists(n)` is false afterwards whenever it was false beforehand; in the
already-exists failure the preexisting installation (necessarily) remains,
so the claim's "no trace of the attempted name" holds for every failure
kind except that one. -/
theorem add_failure_store_unchanged (env : Env) (st : St) (source : Option String)
    (extensionName : Option String) (e : Err)
    (h : (add_extension env st source extensionName).1 = .error e) :
    (add_extension env st source extensionName).2.installed = st.installed := by
  cases extensionName with
  | none =>
    simp only [add_extension] at h ⊢
    exact addSourceBranch_error_installed env st source e h
  | some n =>
    simp only [add_extension] at h ⊢
    by_cases hn : n = ""
    · rw [if_pos hn] at h ⊢
      exact addSourceBranch_error_installed env st source e h
    · rw [if_neg hn] at h ⊢
      by_cases hex : (getExt st.installed n).isSome = true
      · rw [if_pos hex] at h ⊢
      · rw [if_neg hex] at h ⊢
        revert h
        cases hres : env.resolveIndex n none with
        | none =>
          intro h
          rfl
        | some p =>
          obtain ⟨src, sha⟩ := p
          intro h
          exact add_whl_ext_error_installed env
            { st with resolverCalls := st.resolverCalls + 1 } src sha e h

/-- C2 amended witness: a failing add (pip exits nonzero) of the sample
url leaves the empty store empty. -/
theorem add_failure_store_unchanged_witness :
    (add_extension { envSample with pipRc := fun _ => 2 } st0 (some sampleUrl)
        none).2.installed = st0.installed :=
  add_failure_store_unchanged { envSample with pipRc := fun _ => 2 } st0 (some sampleUrl)
    none .installationFailed rfl

/-- C9: when the index has no candidate strictly newer than the installed
version, the update fails with the no-updates-available error and the
installed extension is left completely unchanged — same store, no backup
created, no directory removed, no temporary directory made. -/
theorem update_no_candidate (env : Env) (st : St) (n : String) (cur : ExtRecord)
    (hins : getExt st.installed n = some cur)
    (hres : env.resolveIndex n (some cur.version) = none) :
    (update_extension env st n).1 = .error .noUpdateAvailable ∧
    (update_extension env st n).2.installed = st.installed ∧
    (update_extension env st n).2.backups = st.backups ∧
    (update_extension env st n).2.tmpExtractDirs = st.tmpExtractDirs ∧
    (update_extension env st n).2.tmpDownloadDirs = st.tmpDownloadDirs := by
  unfold update_extension
  simp [hins, hres]

/-- C9 witness: updating installed `"foo"` against an index with no newer
candidate. -/
theorem update_no_candidate_witness :
    (update_extension env0 stFoo "foo").1 = .error .noUpdateAvailable ∧
    (update_extension env0 stFoo "foo").2.installed = stFoo.installed ∧
    (update_extension env0 stFoo "foo").2.backups = stFoo.backups ∧
    (update_extension env0 stFoo "foo").2.tmpExtractDirs = stFoo.tmpExtractDirs ∧
    (update_extension env0 stFoo "foo").2.tmpDownloadDirs = stFoo.tmpDownloadDirs :=
  update_no_candidate env0 stFoo "foo" recFoo rfl rfl

/-- C10: adding by a (nonempty) name that is already installed fails with
the already-exists error and returns the state untouched — in particular
the count of index-resolver invocations is unchanged, so the resolver is
never queried for a name that already exists. -/
theorem add_existing_never_queries_index (env : Env) (st : St) (n : String)
    (source : Option String) (hn : n ≠ "") (hins : (getExt st.installed n).isSome = true) :
    (add_extension env st source (some n)).1 = .error .alreadyExists ∧
    (add_extension env st source (some n)).2 = st ∧
    (add_extension env st source (some n)).2.resolverCalls = st.resolverCalls := by
  simp only [add_extension]
  rw [if_neg hn, if_pos hins]
  exact ⟨rfl, rfl, rfl⟩

/-- C10 witness: adding installed `"foo"` by name fails already-exists
with the resolver-call count untouched. -/
theorem add_existing_never_queries_index_witness :
    (add_extension env0 stFoo none (some "foo")).1 = .error .alreadyExists ∧
    (add_extension env0 stFoo none (some "foo")).2 = stFoo ∧
    (add_extension env0 stFoo none (some "foo")).2.resolverCalls = stFoo.resolverCalls :=
  add_existing_never_queries_index env0 stFoo "foo" none (by decide) rfl

/-- C1: immediately after `update_extension` returns on an installed
extension (with a well-behaved resolver: its candidate wheel is for the
requested name), exactly one of three post-states holds: the new version
is installed and the backup directory deleted; the original version is
present at its install path; or — exactly when the restore copy itself
failed — the extension is absent and the backup orphaned. -/
theorem update_atomicity (env : Env) (st : St) (n : String) (cur : ExtRecord)
    (hins : getExt st.installed n = some cur)
    (hwell : ∀ url sha, env.resolveIndex n (some cur.version) = some (url, sha) →
        derivedNameOf env url = some n) :
    (newInstalled env st n cur ∨ oldRestored env st n cur ∨ degradedOrphan env st n cur) ∧
    ¬(newInstalled env st n cur ∧ oldRestored env st n cur) ∧
    ¬(newInstalled env st n cur ∧ degradedOrphan env st n cur) ∧
    ¬(oldRestored env st n cur ∧ degradedOrphan env st n cur) := by
  refine ⟨?_, ?_, ?_, ?_⟩
  case refine_2 =>
    rintro ⟨h1, h2⟩
    obtain ⟨e, he⟩ := h2.1
    rw [h1.1] at he
    cases he
  case refine_3 =>
    rintro ⟨h1, h3⟩
    have hcontra := h3.1
    rw [h1.1] at hcontra
    cases hcontra
  case refine_4 =>
    rintro ⟨h2, h3⟩
    have hcontra := h2.2.symm.trans h3.2.1
    cases hcontra
  case refine_1 =>
    unfold newInstalled oldRestored degradedOrphan
    cases hres : env.resolveIndex n (some cur.version) with
    | none =>
      have hu : update_extension env st n =
          (.error .noUpdateAvailable, { st with resolverCalls := st.resolverCalls + 1 }) := by
        simp only [update_extension, hins, hres]
      refine .inr (.inl ⟨⟨.noUpdateAvailable, ?_⟩, ?_⟩)
      · rw [hu]
      · rw [hu]
        exact hins
    | some p =>
      obtain ⟨url, sha⟩ := p
      have hder : derivedNameOf env url = some n := hwell url sha hres
      by_cases hbk : env.backupCopyOk = true
      · cases hadd : add_whl_ext env (preInstallState st n cur) url sha with
        | mk r stA =>
          obtain ⟨hB, hcase⟩ := add_whl_ext_cases env (preInstallState st n cur) url sha
          rw [hadd] at hB hcase
          have hBa : stA.backups = (n, cur) :: st.backups := hB
          cases r with
          | ok u =>
            cases u
            have hu : update_extension env st n =
                (.ok (), { stA with backups := stA.backups.erase (n, cur) }) := by
              simp only [update_extension, hins, hres, if_pos hbk, hadd]
            rcases hcase with ⟨⟨e, he⟩, -⟩ | ⟨-, m, hm, hfree, hinst⟩
            · simp at he
            · rw [hder] at hm
              injection hm with hmn
              subst hmn
              refine .inl ⟨?_, ⟨url, sha, rfl, ?_⟩, ?_⟩
              · rw [hu]
              · rw [hu]
                have h2 : stA.installed =
                    setExt (delExt st.installed n) n
                      (env.installResult (contentOf env url)) := hinst
                show getExt stA.installed n = _
                rw [h2]
                exact getExt_setExt _ _ _
              · rw [hu]
                show stA.backups.erase (n, cur) = st.backups
                rw [hBa]
                simp
          | error eadd =>
            rcases hcase with ⟨-, hAinst⟩ | ⟨hok, -⟩
            · have hAi : stA.installed = delExt st.installed n := hAinst
              by_cases hrs : env.restoreCopyOk = true
              · have hu : update_extension env st n =
                    (.error .updateFailed,
                      { stA with installed := setExt stA.installed n cur }) := by
                  simp only [update_extension, hins, hres, if_pos hbk, hadd, if_pos hrs]
                refine .inr (.inl ⟨⟨.updateFailed, ?_⟩, ?_⟩)
                · rw [hu]
                · rw [hu]
                  exact getExt_setExt _ _ _
              · have hu : update_extension env st n = (.error .restoreCopyFailed, stA) := by
                  simp only [update_extension, hins, hres, if_pos hbk, hadd, if_neg hrs]
                refine .inr (.inr ⟨?_, ?_, ?_⟩)
                · rw [hu]
                · rw [hu]
                  show getExt stA.installed n = none
                  rw [hAi]
                  exact getExt_delExt _ _
                · rw [hu]
                  show (n, cur) ∈ stA.backups
                  rw [hBa]
                  exact List.mem_cons_self _ _
            · simp at hok
      · have hu : update_extension env st n =
            (.error .backupCopyFailed, { st with resolverCalls := st.resolverCalls + 1 }) := by
          simp only [update_extension, hins, hres, if_neg hbk]
        refine .inr (.inl ⟨⟨.backupCopyFailed, ?_⟩, ?_⟩)
        · rw [hu]
        · rw [hu]
          exact hins

/-- C1 witness: a successful update of installed `"foo"` to the resolved
2.0.0 wheel reaches the new-version-installed post-state. -/
theorem update_atomicity_witness :
    (newInstalled envUpdate stFoo "foo" recFoo ∨ oldRestored envUpdate stFoo "foo" recFoo ∨
      degradedOrphan envUpdate stFoo "foo" recFoo) ∧
    ¬(newInstalled envUpdate stFoo "foo" recFoo ∧ oldRestored envUpdate stFoo "foo" recFoo) ∧
    ¬(newInstalled envUpdate stFoo "foo" recFoo ∧
        degradedOrphan envUpdate stFoo "foo" recFoo) ∧
    ¬(oldRestored envUpdate stFoo "foo" recFoo ∧
        degradedOrphan envUpdate stFoo "foo" recFoo) :=
  update_atomicity envUpdate stFoo "foo" recFoo rfl (by
    intro url sha h
    rw [show envUpdate.resolveIndex "foo" (some recFoo.version) =
        some (fooUpdateUrl, none) from rfl] at h
    injection h with h1
    injection h1 with hu hs
    subst hu
    decide)

end AzExt
